import Mathlib

/-!
Verification of the Black-Scholes option pipeline (`src/main.cpp`).

Shallow embedding conventions:
* `double` values are modelled as exact rationals (`ℚ`) in the computable
  parsing/interpolation layer and as real numbers (`ℝ`) in the analytic
  pricing layer; binary floating-point rounding is not modelled.
* Fallible C++ operations (`std::stod` exceptions, out-of-bounds
  `std::vector::operator[]`) are modelled with `Option`/explicit flags.
* Loops become structural recursion or folds over index ranges.
-/

set_option exponentiation.threshold 1100
set_option linter.unusedVariables false

-- Batteries marks the `Rat` field operations `@[irreducible]`, which blocks
-- `decide` from evaluating the embedding on concrete inputs; restore the
-- default reducibility for this development.
set_option allowUnsafeReducibility true
attribute [semireducible] Rat.mul Rat.add Rat.sub Rat.inv

namespace BS

/-! ### Numeric parsing: `isValidDouble` (src/main.cpp:126-151) -/

/-- Characters the C locale treats as whitespace (`isspace`), which `strtod`
skips before the number. -/
def isSpaceChar (c : Char) : Bool :=
  c = ' ' || c = '\t' || c = '\n' || c = '\x0b' || c = '\x0c' || c = '\r'

/-- Drop leading whitespace, as `strtod` does. -/
def skipWs : List Char → List Char
  | [] => []
  | c :: cs => if isSpaceChar c then skipWs cs else c :: cs

/-- Consume an optional sign character; `true` means negative. -/
def parseSign : List Char → Bool × List Char
  | [] => (false, [])
  | c :: cs =>
    if c = '-' then (true, cs)
    else if c = '+' then (false, cs)
    else (false, c :: cs)

/-- Take the maximal leading run of decimal digits. -/
def takeDigs : List Char → List Char × List Char
  | [] => ([], [])
  | c :: cs =>
    if c.isDigit then
      let p := takeDigs cs
      (c :: p.1, p.2)
    else ([], c :: cs)

/-- Numeric value of one digit character. -/
def digitVal (c : Char) : ℕ := c.toNat - 48

/-- Value of a digit-character run, most significant first. -/
def digsToNat (ds : List Char) : ℕ := ds.foldl (fun a c => 10 * a + digitVal c) 0

/-- Absolute value on `ℚ`, written so that it evaluates by kernel
reduction. -/
def ratAbs (q : ℚ) : ℚ := if 0 ≤ q then q else -q

/-- `10^e` over `ℚ` for an integer exponent, written through natural-number
powers so that it evaluates by kernel reduction. -/
def pow10 (e : ℤ) : ℚ :=
  if 0 ≤ e then ((10 ^ e.toNat : ℕ) : ℚ) else Rat.divInt 1 ((10 ^ (-e).toNat : ℕ) : ℤ)

/-- Optional exponent tail of the `strtod` grammar: `e`/`E`, optional sign,
digits.  If no digit follows, nothing is consumed (`strtod` backs up to the
end of the mantissa). -/
def parseExpFrom (rest orig : List Char) : ℤ × List Char :=
  let s := parseSign rest
  let p := takeDigs s.2
  if p.1.isEmpty then (0, orig)
  else ((if s.1 then -(digsToNat p.1 : ℤ) else (digsToNat p.1 : ℤ)), p.2)

/-- Wrapper choosing whether an exponent introducer is present. -/
def parseExp (cs : List Char) : ℤ × List Char :=
  match cs with
  | [] => (0, [])
  | c :: rest =>
    if c = 'e' ∨ c = 'E' then parseExpFrom rest (c :: rest) else (0, c :: rest)

/-- The signed value of integer digits `ids` and fraction digits `fds`. -/
def mantissaVal (neg : Bool) (ids fds : List Char) : ℚ :=
  if neg then
    -((digsToNat ids : ℚ) + (digsToNat fds : ℚ) / ((10 ^ fds.length : ℕ) : ℚ))
  else (digsToNat ids : ℚ) + (digsToNat fds : ℚ) / ((10 ^ fds.length : ℕ) : ℚ)

/-- Mantissa value times optional exponent, with the remainder. -/
def strtodExp (neg : Bool) (ids fds cs : List Char) : Option (ℚ × List Char) :=
  some (mantissaVal neg ids fds * pow10 (parseExp cs).1, (parseExp cs).2)

/-- After the integer digits: an optional `.` with fraction digits; at least
one digit must have appeared in total. -/
def strtodAfterInt (neg : Bool) (ids cs2 : List Char) : Option (ℚ × List Char) :=
  match cs2 with
  | '.' :: cs3 =>
    if ids.isEmpty && (takeDigs cs3).1.isEmpty then none
    else strtodExp neg ids (takeDigs cs3).1 (takeDigs cs3).2
  | _ => if ids.isEmpty then none else strtodExp neg ids [] cs2

/-- The decimal fragment of the C `strtod` grammar: optional whitespace, an
optional sign, digits with an optional `.` and fraction, and an optional
exponent.  Returns the parsed value and the unconsumed remainder; `none`
models "no conversion could be performed" (`std::invalid_argument` in
`std::stod`).  Idealization: hexadecimal, infinity and NaN literals are not
modelled, and values are exact rationals rather than rounded doubles. -/
def strtodAux (cs : List Char) : Option (ℚ × List Char) :=
  strtodAfterInt (parseSign (skipWs cs)).1
    (takeDigs (parseSign (skipWs cs)).2).1 (takeDigs (parseSign (skipWs cs)).2).2

/-- Smallest magnitude at which a decimal literal rounds to infinity
(overflow of `double`): `2^1024 - 2^970`. -/
def dblOverflowBound : ℚ := ((2 ^ 1024 - 2 ^ 970 : ℕ) : ℚ)

/-- Largest magnitude strictly below which a nonzero decimal literal rounds
into the subnormal range, for which glibc `strtod` reports `ERANGE`
(underflow): `2^-1022 - 2^-1075 = (2^53 - 1) / 2^1075`. -/
def dblUnderflowBound : ℚ := Rat.divInt ((2 ^ 53 - 1 : ℕ) : ℤ) ((2 ^ 1075 : ℕ) : ℤ)

/-- Whether `std::stod` raises `std::out_of_range` for this exact value. -/
def stodRangeErr (q : ℚ) : Bool :=
  decide (dblOverflowBound ≤ ratAbs q) ||
    (decide (q ≠ 0) && decide (ratAbs q < dblUnderflowBound))

/-- The comma-to-dot replacement loop (src/main.cpp:136-138). -/
def replaceCommasWithDots (s : String) : String :=
  String.mk (s.data.map fun c => if c = ',' then '.' else c)

/-- Embedding of `isValidDouble` (src/main.cpp:126-151).  The C++ function
writes through its `double& result` out-parameter, so the model takes the
current value of `result` and returns the pair (return value, new value of
`result`): `std::stod` stores into `result` before the full-consumption
check `pos == strWithDot.length()` and leaves it untouched when it throws. -/
def isValidDouble (str : String) (result : ℚ) : Bool × ℚ :=
  match strtodAux (replaceCommasWithDots str).data with
  | none => (false, result)
  | some (q, rest) =>
    if stodRangeErr q then (false, result)
    else (rest.isEmpty, q)

/-- Whether a field string parses (the boolean the interpolation passes
branch on); independent of the out-parameter's incoming value. -/
def validD (s : String) : Bool := (isValidDouble s 0).1

/-- The parsed value of a field string (meaningful when `validD`). -/
def valD (s : String) : ℚ := (isValidDouble s 0).2

/-! ### The raw record type (src/main.cpp:307-316) -/

/-- `struct Data`: the eight semicolon-separated fields of one input line,
kept as raw strings. -/
structure Data where
  description : String
  strike : String
  kind : String
  bid : String
  ask : String
  underBid : String
  underAsk : String
  created_at : String
deriving DecidableEq

/-! ### `std::to_string` model

The interior interpolation pass stores `std::to_string((a+b)/2)`
(src/main.cpp:385), i.e. `printf "%f"`: fixed-point notation with exactly six
decimals, rounding to nearest with ties to even. -/

/-- Decimal digit characters of a natural number, most significant first. -/
def natDigs (n : ℕ) : List Char := Nat.toDigits 10 n

/-- Left-pad a digit run with zeros to width `k`. -/
def padZeros (k : ℕ) (ds : List Char) : List Char :=
  List.replicate (k - ds.length) '0' ++ ds

/-- Round a nonnegative rational to the nearest natural number, ties to
even (the rounding `printf "%f"` applies to the scaled magnitude). -/
def roundHalfEven (x : ℚ) : ℕ :=
  let f := x.floor.toNat
  let r := x - x.floor
  if r < 1 / 2 then f
  else if 1 / 2 < r then f + 1
  else if f % 2 = 0 then f else f + 1

/-- Model of `std::to_string(double)`: `%f` rendering with six decimals. -/
def toString6 (q : ℚ) : String :=
  let m := roundHalfEven (ratAbs q * 1000000)
  (if q < 0 then "-" else "") ++ String.mk (natDigs (m / 1000000)) ++ "." ++
    String.mk (padZeros 6 (natDigs (m % 1000000)))

/-! ### Gap-filling interpolation: `replaceMissingValues` (src/main.cpp:323-513)

The source runs three passes (first record, interior records, last record)
over each of the four columns `ask`, `bid`, `underBid`, `underAsk` with
textually identical logic, and the columns never read one another, so the
model factors one per-column computation `fillField`.

Total model of the out-of-bounds accesses the source performs (they are
undefined behavior in C++): a read at an index `≥` length parses as an
invalid field and a write there is dropped.  `replaceMissingValuesChecked`
below instead makes every such access an explicit failure. -/

/-- Does `data[i]` hold a parseable value?  Out-of-bounds reads count as
invalid in the total model. -/
def validAt (xs : List String) (i : ℕ) : Bool :=
  match xs.get? i with
  | some s => validD s
  | none => false

/-- The parsed value at index `i`. -/
def valAt (xs : List String) (i : ℕ) : ℚ := valD (xs.getD i "")

/-- The raw string at index `i`. -/
def strAt (xs : List String) (i : ℕ) : String := xs.getD i ""

/-- Forward scan `for (z = i; z < data.size(); z++)` stopping at the first
parseable field; the second argument is the remaining fuel
`data.size() - i`. -/
def scanFwdAux (xs : List String) (i : ℕ) : ℕ → Option ℚ
  | 0 => none
  | fuel + 1 => if validAt xs i then some (valAt xs i) else scanFwdAux xs (i + 1) fuel

/-- Nearest parseable value at index `≥ i` (the interior pass's upper
anchor, src/main.cpp:377-382). -/
def scanFwd (xs : List String) (i : ℕ) : Option ℚ := scanFwdAux xs i (xs.length - i)

/-- Backward scan `for (j = i; j >= 0; j--)` stopping at the first parseable
field: nearest parseable value at index `≤ i` (the interior pass's lower
anchor, src/main.cpp:370-375).  `none` means no index down to 0 parses; in
the source the `size_t` counter then wraps past zero and the loop reads far
out of bounds (undefined behavior). -/
def scanBack (xs : List String) : ℕ → Option ℚ
  | 0 => if validAt xs 0 then some (valAt xs 0) else none
  | j + 1 => if validAt xs (j + 1) then some (valAt xs (j + 1)) else scanBack xs j

/-- Backward scan returning the raw string (the last-record pass copies the
field string verbatim, src/main.cpp:476-481). -/
def scanBackStr (xs : List String) : ℕ → Option String
  | 0 => if validAt xs 0 then some (strAt xs 0) else none
  | j + 1 => if validAt xs (j + 1) then some (strAt xs (j + 1)) else scanBackStr xs j

/-- Forward scan returning the raw string, starting at index 1 (the
first-record pass copies the field string verbatim, src/main.cpp:327-334);
fuel is `data.size() - i`. -/
def scanFwdStrAux (xs : List String) (i : ℕ) : ℕ → Option String
  | 0 => none
  | fuel + 1 => if validAt xs i then some (strAt xs i) else scanFwdStrAux xs (i + 1) fuel

/-- First-record pass for one column (src/main.cpp:327-334): if `data[0]`
does not parse, replace it with the first parseable string found scanning
forward from index 1. -/
def firstPass (xs : List String) : List String :=
  if validAt xs 0 then xs
  else
    match scanFwdStrAux xs 1 (xs.length - 1) with
    | some s => xs.set 0 s
    | none => xs

/-- Body of one interior-pass iteration (src/main.cpp:366-389): if `data[i]`
does not parse, find the nearest parseable values below and above; both
anchors are initialized to the sentinel `-1` and the fill happens only when
both differ from `-1` afterwards (so a genuine anchor value of `-1` is
conflated with "no anchor"); the stored string is
`std::to_string((lower+upper)/2)`. -/
def interiorStep (xs : List String) (i : ℕ) : List String :=
  if validAt xs i then xs
  else
    let puntaInferior : ℚ := (scanBack xs i).getD (-1)
    let puntaSuperior : ℚ := (scanFwd xs i).getD (-1)
    if puntaInferior ≠ -1 ∧ puntaSuperior ≠ -1 then
      xs.set i (toString6 ((puntaInferior + puntaSuperior) / 2))
    else xs

/-- Interior pass `for (i = 1; i < data.size() - 1; i++)`
(src/main.cpp:365-390).  For an empty column the `size_t` bound
`data.size() - 1` wraps in the source and the loop reads out of bounds
(undefined behavior); the total model iterates zero times there. -/
def interiorPass (xs : List String) : List String :=
  (List.range' 1 (xs.length - 2)).foldl interiorStep xs

/-- Last-record pass (src/main.cpp:475-482): the source tests and assigns
`data[data.size()].ask`, one past the end of the vector, and scans backward
from `i = data.size()`.  In the total model the out-of-bounds read is
invalid, so the scan always runs, and the out-of-bounds write is dropped,
so the pass never changes the column — in particular the genuine last
record at index `data.size() - 1` is never filled. -/
def lastPass (xs : List String) : List String :=
  if validAt xs xs.length then xs
  else
    match scanBackStr xs xs.length with
    | some s => xs.set xs.length s
    | none => xs

/-- One column's complete interpolation. -/
def fillField (xs : List String) : List String := lastPass (interiorPass (firstPass xs))

/-- Write the four processed columns back into the records, positionally. -/
def reassemble : List Data → List String → List String → List String → List String → List Data
  | [], _, _, _, _ => []
  | r :: rs, as_, bs, ubs, uas =>
    { r with
      ask := as_.headD r.ask
      bid := bs.headD r.bid
      underBid := ubs.headD r.underBid
      underAsk := uas.headD r.underAsk } ::
      reassemble rs as_.tail bs.tail ubs.tail uas.tail

/-- Embedding of `replaceMissingValues` (src/main.cpp:323-513): the four
columns are processed independently with identical logic. -/
def replaceMissingValues (data : List Data) : List Data :=
  reassemble data (fillField (data.map (·.ask))) (fillField (data.map (·.bid)))
    (fillField (data.map (·.underBid))) (fillField (data.map (·.underAsk)))

/-! ### Bounds-checked interpolation model

Same passes, but every `data[i]` access is bounds-checked: `none` marks the
undefined behavior of an out-of-bounds `std::vector::operator[]`. -/

/-- Bounds-checked read of `data[i]`. -/
def readChecked (xs : List String) (i : ℕ) : Option String := xs.get? i

/-- Bounds-checked write of `data[i]`. -/
def writeChecked (xs : List String) (i : ℕ) (s : String) : Option (List String) :=
  if i < xs.length then some (xs.set i s) else none

/-- First-record pass with bounds checking: the unguarded `data[0]` read
fails on an empty sequence; the forward scan stays in bounds. -/
def firstPassChecked (xs : List String) : Option (List String) :=
  (readChecked xs 0).bind fun v0 =>
    if validD v0 then some xs
    else
      match scanFwdStrAux xs 1 (xs.length - 1) with
      | some s => writeChecked xs 0 s
      | none => some xs

/-- Interior-pass body with bounds checking: a backward scan that exhausts
index 0 without finding a parseable field wraps its `size_t` counter in the
source and reads out of bounds, hence `none`. -/
def interiorStepChecked (xs : List String) (i : ℕ) : Option (List String) :=
  (readChecked xs i).bind fun v =>
    if validD v then some xs
    else
      (scanBack xs i).bind fun puntaInferior =>
        let puntaSuperior : ℚ := (scanFwd xs i).getD (-1)
        if puntaInferior ≠ -1 ∧ puntaSuperior ≠ -1 then
          writeChecked xs i (toString6 ((puntaInferior + puntaSuperior) / 2))
        else some xs

/-- Interior pass with bounds checking; on an empty column the wrapped
`size_t` loop bound makes the source read out of bounds at once. -/
def interiorPassChecked (xs : List String) : Option (List String) :=
  if xs.length = 0 then none
  else (List.range' 1 (xs.length - 2)).foldlM interiorStepChecked xs

/-- Last-record pass with bounds checking: the source's very first step
reads `data[data.size()]`, out of bounds for every vector. -/
def lastPassChecked (xs : List String) : Option (List String) :=
  (readChecked xs xs.length).bind fun v =>
    if validD v then some xs
    else
      match scanBackStr xs xs.length with
      | some s => writeChecked xs xs.length s
      | none => none

/-- Bounds-checked embedding of `replaceMissingValues`, with the passes in
the source's order: the four first-record passes, the four interior passes,
then the four last-record passes (ask, bid, underAsk, underBid for the
last group, src/main.cpp:475-509). -/
def replaceMissingValuesChecked (data : List Data) : Option (List Data) :=
  (firstPassChecked (data.map (·.ask))).bind fun asks0 =>
  (firstPassChecked (data.map (·.bid))).bind fun bids0 =>
  (firstPassChecked (data.map (·.underBid))).bind fun ubs0 =>
  (firstPassChecked (data.map (·.underAsk))).bind fun uas0 =>
  (interiorPassChecked asks0).bind fun asks1 =>
  (interiorPassChecked bids0).bind fun bids1 =>
  (interiorPassChecked ubs0).bind fun ubs1 =>
  (interiorPassChecked uas0).bind fun uas1 =>
  (lastPassChecked asks1).bind fun asks2 =>
  (lastPassChecked bids1).bind fun bids2 =>
  (lastPassChecked uas1).bind fun uas2 =>
  (lastPassChecked ubs1).bind fun ubs2 =>
  some (reassemble data asks2 bids2 ubs2 uas2)

/-! ### Date handling (src/main.cpp:159-255)

`isValidFormatDate` matches the observed timestamp against the regex
`^(0?[1-9]|1[0-2])/(0?[1-9]|1[0-9]|2[0-9]|3[0-1])/(20[0-9][0-9]) (0?[0-9]|1[0-9]|2[0-3]):([0-5][0-9])$`.
Because every separator in the pattern is a non-digit, a regex match is
equivalent to splitting the string at its maximal digit runs and checking
each run's length and numeric value against the alternation it must match:
month = 1-2 digits with value 1..12, day = 1-2 digits with value 1..31,
year = exactly 4 digits with value 2000..2099, hour = 1-2 digits with value
0..23, minute = exactly 2 digits with value 0..59. -/

/-- Split `M/D/YYYY H:MM`-shaped input into its five digit runs, requiring
exactly the separators `/`, `/`, space, `:` and end of input. -/
def splitObserved (cs : List Char) :
    Option (List Char × List Char × List Char × List Char × List Char) :=
  let p1 := takeDigs cs
  match p1.2 with
  | '/' :: cs2 =>
    let p2 := takeDigs cs2
    match p2.2 with
    | '/' :: cs4 =>
      let p3 := takeDigs cs4
      match p3.2 with
      | ' ' :: cs6 =>
        let p4 := takeDigs cs6
        match p4.2 with
        | ':' :: cs8 =>
          let p5 := takeDigs cs8
          if p5.2.isEmpty then some (p1.1, p2.1, p3.1, p4.1, p5.1) else none
        | _ => none
      | _ => none
    | _ => none
  | _ => none

/-- Embedding of `isValidFormatDate` (src/main.cpp:159-183). -/
def isValidFormatDate (s : String) : Bool :=
  match splitObserved s.data with
  | none => false
  | some (r1, r2, r3, r4, r5) =>
    decide (1 ≤ r1.length ∧ r1.length ≤ 2 ∧ 1 ≤ digsToNat r1 ∧ digsToNat r1 ≤ 12) &&
    decide (1 ≤ r2.length ∧ r2.length ≤ 2 ∧ 1 ≤ digsToNat r2 ∧ digsToNat r2 ≤ 31) &&
    decide (r3.length = 4 ∧ 2000 ≤ digsToNat r3 ∧ digsToNat r3 ≤ 2099) &&
    decide (1 ≤ r4.length ∧ r4.length ≤ 2 ∧ digsToNat r4 ≤ 23) &&
    decide (r5.length = 2 ∧ digsToNat r5 ≤ 59)

/-- Split `DD/MM/YYYY`-shaped input into its three digit runs. -/
def splitSlash3 (cs : List Char) : Option (List Char × List Char × List Char) :=
  let p1 := takeDigs cs
  match p1.2 with
  | '/' :: cs2 =>
    let p2 := takeDigs cs2
    match p2.2 with
    | '/' :: cs4 =>
      let p3 := takeDigs cs4
      if p3.2.isEmpty then some (p1.1, p2.1, p3.1) else none
    | _ => none
  | _ => none

/-- Embedding of `isValidFormatExpirationDate` (src/main.cpp:191-202): the
regex `\d{2}/\d{2}/\d{4}`, shape only. -/
def isValidFormatExpirationDate (s : String) : Bool :=
  match splitSlash3 s.data with
  | none => false
  | some (r1, r2, r3) => decide (r1.length = 2 ∧ r2.length = 2 ∧ r3.length = 4)

/-! #### `std::get_time` / `mktime` model

libstdc++'s `_M_extract_via_format` parses one field at a time, storing each
into the `std::tm` as it goes; a numeric field reads up to its width in
digits and fails (setting `failbit` and stopping, keeping earlier fields) if
the value is outside its range (`%d`: 1..31, `%m`: 1..12, `%Y`: 0..9999,
`%H`: 0..23, `%M`: 0..59).  Fields never parsed keep their
zero-initialized `std::tm` defaults: `tm_mday = 0`, `tm_mon = 0` (January),
`tm_year = 0` (year 1900), hour/minute/second 0.  `mktime` interprets the
possibly out-of-range `tm_mday` by normalizing against the proleptic
Gregorian calendar, which plain day arithmetic reproduces; with
`tm_isdst = 0` for both calls the constant local-time offset cancels from
the difference and from the `time2 < time1` comparison, so seconds are
counted from the civil epoch directly. -/

/-- The `std::tm` fields the program uses, with `mon` 1-based
(`tm_mon + 1`) and `year` absolute (`tm_year + 1900`). -/
structure TmParts where
  year : ℤ
  mon : ℕ
  mday : ℤ
  hour : ℕ
  minute : ℕ
deriving DecidableEq

/-- Zero-initialized `std::tm`. -/
def tmDefault : TmParts := ⟨1900, 1, 0, 0, 0⟩

/-- Take at most `k` leading digit characters. -/
def takeDigsUpTo : ℕ → List Char → List Char × List Char
  | 0, rest => ([], rest)
  | _ + 1, [] => ([], [])
  | k + 1, c :: rest =>
    if c.isDigit then
      let p := takeDigsUpTo k rest
      (c :: p.1, p.2)
    else ([], c :: rest)

/-- libstdc++ `_M_extract_num`: read up to `width` digits and check the
value against `[lo, hi]`. -/
def extractNum (lo hi width : ℕ) (cs : List Char) : Option (ℕ × List Char) :=
  let p := takeDigsUpTo width cs
  if p.1.isEmpty then none
  else if lo ≤ digsToNat p.1 ∧ digsToNat p.1 ≤ hi then some (digsToNat p.1, p.2) else none

/-- `ss1 >> std::get_time(&tm1, "%m/%d/%Y"); ss1.ignore(1); ss1 >>
std::get_time(&tm1, "%H:%M:%S")` (src/main.cpp:231-234).  The trailing
`:%S` always fails at end of a `H:MM` input, leaving seconds 0. -/
def getTimeObserved (s : String) : TmParts :=
  match extractNum 1 12 2 s.data with
  | none => tmDefault
  | some (m, cs1) =>
    match cs1 with
    | '/' :: cs2 =>
      match extractNum 1 31 2 cs2 with
      | none => { tmDefault with mon := m }
      | some (d, cs3) =>
        match cs3 with
        | '/' :: cs4 =>
          match extractNum 0 9999 4 cs4 with
          | none => { tmDefault with mon := m, mday := d }
          | some (y, cs5) =>
            let cs6 := cs5.drop 1
            match extractNum 0 23 2 cs6 with
            | none => { tmDefault with mon := m, mday := d, year := y }
            | some (h, cs7) =>
              match cs7 with
              | ':' :: cs8 =>
                match extractNum 0 59 2 cs8 with
                | none => { tmDefault with mon := m, mday := d, year := y, hour := h }
                | some (mi, _) =>
                  { tmDefault with mon := m, mday := d, year := y, hour := h, minute := mi }
              | _ => { tmDefault with mon := m, mday := d, year := y, hour := h }
        | _ => { tmDefault with mon := m, mday := d }
    | _ => { tmDefault with mon := m }

/-- `ss2 >> std::get_time(&tm2, "%d/%m/%Y %H:%M:%S")` (src/main.cpp:237) on
a `DD/MM/YYYY` string: the trailing ` %H:%M:%S` fails at end of input,
leaving hour and minute 0. -/
def getTimeExpiration (s : String) : TmParts :=
  match extractNum 1 31 2 s.data with
  | none => tmDefault
  | some (d, cs1) =>
    match cs1 with
    | '/' :: cs2 =>
      match extractNum 1 12 2 cs2 with
      | none => { tmDefault with mday := d }
      | some (m, cs3) =>
        match cs3 with
        | '/' :: cs4 =>
          match extractNum 0 9999 4 cs4 with
          | none => { tmDefault with mday := d, mon := m }
          | some (y, _) => { tmDefault with mday := d, mon := m, year := y }
        | _ => { tmDefault with mday := d, mon := m }
    | _ => { tmDefault with mday := d }

/-- Days from the civil epoch 1970-01-01 of year/month/day in the proleptic
Gregorian calendar (Hinnant's `days_from_civil`); `d` ranges over all of
`ℤ`, which reproduces `mktime`'s normalization of out-of-range `tm_mday`. -/
def daysFromCivil (y : ℤ) (m : ℕ) (d : ℤ) : ℤ :=
  let y' : ℤ := if m ≤ 2 then y - 1 else y
  let era : ℤ := Int.fdiv y' 400
  let yoe : ℤ := y' - era * 400
  let mp : ℕ := (m + 9) % 12
  let doy : ℤ := (((153 * mp + 2) / 5 : ℕ) : ℤ) + d - 1
  let doe : ℤ := yoe * 365 + yoe / 4 - yoe / 100 + yoe / 400 + doy
  era * 146097 + doe - 719468

/-- `mktime` seconds (constant local-time offset dropped, as it cancels
between the two dates). -/
def tmToSeconds (t : TmParts) : ℤ :=
  86400 * daysFromCivil t.year t.mon t.mday + 3600 * (t.hour : ℤ) + 60 * (t.minute : ℤ)

/-- Epoch seconds of the observed timestamp (`time1` in the source). -/
def observedEpochSeconds (s : String) : ℤ := tmToSeconds (getTimeObserved s)

/-- Epoch seconds of the expiration date (`time2` in the source). -/
def expirationEpochSeconds (s : String) : ℤ := tmToSeconds (getTimeExpiration s)

/-- Embedding of `obtenerDiferenciaEnAnios` (src/main.cpp:211-255). -/
def obtenerDiferenciaEnAnios (fecha1_str fecha2_str : String) : ℚ :=
  if !isValidFormatDate fecha1_str then -1
  else if !isValidFormatExpirationDate fecha2_str then -1
  else
    let time1 := observedEpochSeconds fecha1_str
    let time2 := expirationEpochSeconds fecha2_str
    if time2 < time1 then -1
    else ((time2 - time1 : ℤ) : ℚ) / (365 * 24 * 60 * 60)

/-! ### Black-Scholes pricing (src/main.cpp:28-53) and the bisection solver
(src/main.cpp:75-95)

`double` arithmetic is modelled over `ℝ`; `std::erf` is the mathematical
error function, written as its defining integral. -/

noncomputable section
open Real

/-- The error function, the mathematical content of `std::erf`. -/
def erfR (x : ℝ) : ℝ := 2 / Real.sqrt π * ∫ t in (0 : ℝ)..x, Real.exp (-t ^ 2)

/-- Embedding of `cdf` (src/main.cpp:28-30). -/
def cdf (x : ℝ) : ℝ := 0.5 * (1 + erfR (x / Real.sqrt 2))

/-- Embedding of `calculate_d1` (src/main.cpp:32-34). -/
def calculate_d1 (S K T r sigma : ℝ) : ℝ :=
  (Real.log (S / K) + (r + 0.5 * sigma * sigma) * T) / (sigma * Real.sqrt T)

/-- Embedding of `blackScholesCall` (src/main.cpp:46-53). -/
def blackScholesCall (S K T r sigma : ℝ) : ℝ :=
  let d1 := calculate_d1 S K T r sigma
  let d2 := d1 - sigma * Real.sqrt T
  S * cdf d1 - K * Real.exp (-r * T) * cdf d2

open Classical in
/-- Embedding of `findImpliedVolatility` (src/main.cpp:75-95): the loop
counter becomes descending fuel, the mutated bracket `[a, b]` becomes the
arguments of the recursive call. -/
def findImpliedVolatility (S K T r optionPrice : ℝ) (a b tolerance : ℝ) : ℕ → ℝ
  | 0 => -1
  | maxIterations + 1 =>
    let p := (a + b) / 2
    let precio_teorico := blackScholesCall S K T r p
    if |precio_teorico - optionPrice| < tolerance then p
    else if optionPrice > precio_teorico then
      findImpliedVolatility S K T r optionPrice p b tolerance maxIterations
    else
      findImpliedVolatility S K T r optionPrice a p tolerance maxIterations

/-- Midpoint of a bracket. -/
def bracketMid (ab : ℝ × ℝ) : ℝ := (ab.1 + ab.2) / 2

open Classical in
/-- Claim-side description of one bisection iteration's bracket update: at
the midpoint `p`, move `low` up to `p` when the market price is strictly
greater than the theoretical price, else move `high` down to `p`. -/
def bisectStep (S K T r optionPrice : ℝ) (ab : ℝ × ℝ) : ℝ × ℝ :=
  if optionPrice > blackScholesCall S K T r (bracketMid ab) then (bracketMid ab, ab.2)
  else (ab.1, bracketMid ab)

/-- Claim-side early-exit test: the theoretical price at the bracket
midpoint is within `tolerance` of the market price. -/
def hitsTolerance (S K T r optionPrice tolerance : ℝ) (ab : ℝ × ℝ) : Prop :=
  |blackScholesCall S K T r (bracketMid ab) - optionPrice| < tolerance

/-! ### The per-record transform in `main` (src/main.cpp:622-679) -/

/-- Embedding of `calculateUnderVolatility` (src/main.cpp:523-531); the
`expiration` parameter is unused, as in the source. -/
def calculateUnderVolatility (bid ask expiration : ℝ) : ℝ :=
  let logDifference := Real.log bid - Real.log ask
  let term1 := 0.5 * logDifference ^ 2
  let term2 := (2 * Real.log 2 - 1) * logDifference ^ 2
  Real.sqrt (term1 - term2) * Real.sqrt (256 * 390)

/-- `struct OptionData` (src/main.cpp:100-117). -/
structure OptionData where
  description : String
  strike : ℤ
  kind : String
  bid : ℝ
  ask : ℝ
  under_bid : ℝ
  under_ask : ℝ
  created_at : String
  expiration_date : String
  price : ℝ
  intrinsic_value : ℝ
  extrinsic_value : ℝ
  under_price : ℝ
  implied_volatility : ℝ
  under_volatility : ℝ
  expiration : ℝ

/-- The indeterminate initial contents of the uninitialized fields of the
stack object `OptionData opcion;` — `main` leaves `expiration`, `price`,
`under_price` and `under_volatility` unassigned on some paths (a
pre-existing source inconsistency the spec notes in §4.7), so the model
quantifies over whatever garbage they hold. -/
structure UninitOptionData where
  expiration : ℝ
  price : ℝ
  under_price : ℝ
  under_volatility : ℝ

/-- The constant expiration date string (src/main.cpp:549). -/
def fecha_vencimiento : String := "20/10/2023"

/-- The continuously-compounded risk-free rate `log(1 + 1)`
(src/main.cpp:540-541). -/
def rf_continua : ℝ := Real.log (1 + 1)

/-- `opcion.expiration`: set from the date calculator only when
`created_at` is nonempty, otherwise left holding garbage
(src/main.cpp:637-640). -/
def recExpiration (dato : Data) (u : UninitOptionData) : ℝ :=
  if dato.created_at ≠ "" then
    ((obtenerDiferenciaEnAnios dato.created_at fecha_vencimiento : ℚ) : ℝ)
  else u.expiration

/-- The `bid` local after `isValidDouble(datos[i].bid, bid)`: initialized to
`-1`, then possibly overwritten by the parse (src/main.cpp:625,642). -/
def recBidParse (dato : Data) : Bool × ℚ := isValidDouble dato.bid (-1)

/-- The `ask` local: `&&` short-circuits, so the parse only runs when the
bid parse returned true (src/main.cpp:642-643). -/
def recAskParse (dato : Data) : Bool × ℚ :=
  if (recBidParse dato).1 then isValidDouble dato.ask (-1) else (false, -1)

/-- `opcion.price`: the bid/ask midpoint when both parses succeed, garbage
otherwise (src/main.cpp:642-645). -/
def recPrice (dato : Data) (u : UninitOptionData) : ℝ :=
  if (recBidParse dato).1 && (recAskParse dato).1 then
    ((((recBidParse dato).2 + (recAskParse dato).2) / 2 : ℚ) : ℝ)
  else u.price

/-- The `under_bid` local (src/main.cpp:627,647). -/
def recUnderBidParse (dato : Data) : Bool × ℚ := isValidDouble dato.underBid (-1)

/-- The `under_ask` local, behind the short-circuit (src/main.cpp:647-648). -/
def recUnderAskParse (dato : Data) : Bool × ℚ :=
  if (recUnderBidParse dato).1 then isValidDouble dato.underAsk (-1) else (false, -1)

/-- `opcion.under_price` (src/main.cpp:647-649). -/
def recUnderPrice (dato : Data) (u : UninitOptionData) : ℝ :=
  if (recUnderBidParse dato).1 && (recUnderAskParse dato).1 then
    ((((recUnderAskParse dato).2 + (recUnderBidParse dato).2) / 2 : ℚ) : ℝ)
  else u.under_price

/-- `opcion.under_volatility` (src/main.cpp:650). -/
def recUnderVolatility (dato : Data) (u : UninitOptionData) : ℝ :=
  if (recUnderBidParse dato).1 && (recUnderAskParse dato).1 then
    calculateUnderVolatility ((recUnderBidParse dato).2 : ℝ) ((recUnderAskParse dato).2 : ℝ)
      (recExpiration dato u)
  else u.under_volatility

open Classical in
/-- `opcion.implied_volatility`: set to `-1`, then overwritten by the
bisection solver exactly when `expiration > 0 && price > 0 &&
under_price > 0` (src/main.cpp:653-664); the call passes the strike 1033,
`rf_continua`, the bracket `[0.00001, 5]`, tolerance `0.00001` and 500
iterations (src/main.cpp:544,556-557,661-663). -/
def recImpliedVolatility (dato : Data) (u : UninitOptionData) : ℝ :=
  if recExpiration dato u > 0 ∧ recPrice dato u > 0 ∧ recUnderPrice dato u > 0 then
    findImpliedVolatility (recUnderPrice dato u) 1033 (recExpiration dato u) rf_continua
      (recPrice dato u) 0.00001 5 0.00001 500
  else -1

/-- One iteration of the per-record loop in `main` (src/main.cpp:622-679):
the assembled `OptionData` row. -/
def processRecord (dato : Data) (u : UninitOptionData) : OptionData where
  description := "GFGC1033OC"
  strike := 1033
  kind := "CALL"
  bid := ((recBidParse dato).2 : ℝ)
  ask := ((recAskParse dato).2 : ℝ)
  under_bid := ((recUnderBidParse dato).2 : ℝ)
  under_ask := ((recUnderAskParse dato).2 : ℝ)
  created_at := dato.created_at
  expiration_date := fecha_vencimiento
  price := recPrice dato u
  intrinsic_value := recUnderPrice dato u - 1033
  extrinsic_value := recPrice dato u - (recUnderPrice dato u - 1033)
  under_price := recUnderPrice dato u
  implied_volatility := recImpliedVolatility dato u
  under_volatility := recUnderVolatility dato u
  expiration := recExpiration dato u

/-- The standard normal density, the derivative of `cdf`. -/
def gaussPdf (x : ℝ) : ℝ := Real.exp (-x ^ 2 / 2) / Real.sqrt (2 * π)

end

/-! ### Claim-side auxiliary definitions -/

/-- A record whose four numeric fields all hold the string `s` and whose
other fields are empty (input-building helper for concrete runs). -/
def mkData (s : String) : Data := ⟨"", "", "", s, s, s, s, ""⟩

/-- A concrete input line whose bid field `"12.5x"` has a parseable prefix
followed by junk. -/
def badBidRecord : Data :=
  ⟨"GFGC1033OC", "1033", "CALL", "12.5x", "178,999", "1180,5", "1184,85", "10/18/2023 12:18"⟩

/-- Claim C9: for every assembled `NormalizedRecord` (here: every
`OptionData` row `main` builds), `intrinsic_value + extrinsic_value = price`
holds, with `intrinsic_value = under_price - strike` and
`extrinsic_value = price - intrinsic_value`.  The invariant holds for every
record, in particular whenever the price is defined. -/
theorem intrinsic_extrinsic_invariant (dato : Data) (u : UninitOptionData) :
    (processRecord dato u).intrinsic_value + (processRecord dato u).extrinsic_value =
      (processRecord dato u).price := by
  show recUnderPrice dato u - 1033 + (recPrice dato u - (recUnderPrice dato u - 1033)) =
    recPrice dato u
  ring

/-- Claim C8: `main` invokes the implied-volatility solver exactly under the
guard `expiration > 0 && price > 0 && under_price > 0` (on the record's own
field values, which hold indeterminate garbage when their defining steps
were skipped), and in every other case the assembled record's
implied-volatility field is the sentinel `-1`. -/
theorem impliedVolatility_guard_spec (dato : Data) (u : UninitOptionData) :
    (((processRecord dato u).expiration > 0 ∧ (processRecord dato u).price > 0 ∧
        (processRecord dato u).under_price > 0) →
      (processRecord dato u).implied_volatility =
        findImpliedVolatility ((processRecord dato u).under_price) 1033
          ((processRecord dato u).expiration) rf_continua ((processRecord dato u).price)
          0.00001 5 0.00001 500) ∧
    ((¬ ((processRecord dato u).expiration > 0 ∧ (processRecord dato u).price > 0 ∧
        (processRecord dato u).under_price > 0)) →
      (processRecord dato u).implied_volatility = -1) := by
  constructor
  · intro h
    show recImpliedVolatility dato u = _
    unfold recImpliedVolatility
    exact if_pos h
  · intro h
    show recImpliedVolatility dato u = -1
    unfold recImpliedVolatility
    exact if_neg h

/-- Witness for C8 at a concrete record: with an empty `created_at` and the
garbage fields all 0, the guard fails and the implied-volatility field is
`-1`. -/
theorem impliedVolatility_guard_spec_witness :
    (¬ ((processRecord (mkData "") ⟨0, 0, 0, 0⟩).expiration > 0 ∧
        (processRecord (mkData "") ⟨0, 0, 0, 0⟩).price > 0 ∧
        (processRecord (mkData "") ⟨0, 0, 0, 0⟩).under_price > 0)) ∧
    (processRecord (mkData "") ⟨0, 0, 0, 0⟩).implied_volatility = -1 := by
  have hexp : (processRecord (mkData "") ⟨0, 0, 0, 0⟩).expiration = 0 := by
    show recExpiration (mkData "") ⟨0, 0, 0, 0⟩ = 0
    unfold recExpiration
    rw [if_neg]
    intro hne
    exact hne rfl
  have h : ¬ ((processRecord (mkData "") ⟨0, 0, 0, 0⟩).expiration > 0 ∧
      (processRecord (mkData "") ⟨0, 0, 0, 0⟩).price > 0 ∧
      (processRecord (mkData "") ⟨0, 0, 0, 0⟩).under_price > 0) := by
    intro hc
    rw [hexp] at hc
    exact lt_irrefl 0 hc.1
  exact ⟨h, (impliedVolatility_guard_spec (mkData "") ⟨0, 0, 0, 0⟩).2 h⟩

/-- Claim C10: on `"12.5x"` the parser returns `false` yet has already
overwritten its out-parameter with the parsed prefix `12.5`; in the
per-record transform the `-1` sentinel initialization of `bid` is therefore
replaced and the partially-parsed value is written to the output row's
`bid`, while the `price` (guarded by the parse flag) stays at its garbage
default. -/
theorem isValidDouble_partial_write_leak (u : UninitOptionData) :
    isValidDouble "12.5x" (-1) = (false, 25 / 2) ∧
    (processRecord badBidRecord u).bid = ((25 / 2 : ℚ) : ℝ) ∧
    (processRecord badBidRecord u).price = u.price := by
  refine ⟨by decide, ?_, ?_⟩
  · show ((recBidParse badBidRecord).2 : ℝ) = ((25 / 2 : ℚ) : ℝ)
    have h : recBidParse badBidRecord = (false, 25 / 2) := by decide
    rw [h]
  · show recPrice badBidRecord u = u.price
    unfold recPrice
    exact if_neg (by decide)

/-- Claim C3 (code bug): every run of `replaceMissingValues` accesses the
record sequence out of bounds — on a nonempty sequence the last-record pass
unconditionally reads `data[data.size()]` (and on an empty sequence the
first-record pass reads `data[0]`), so the bounds-checked model always
fails; in particular sequences of length 0 and 1 are not handled safely. -/
theorem replaceMissingValues_always_out_of_bounds (data : List Data) :
    replaceMissingValuesChecked data = none := by
  have hbind : ∀ {α β : Type} (o : Option α) (f : α → Option β),
      (∀ a, f a = none) → o.bind f = none := by
    intro α β o f h
    cases o
    · rfl
    · exact h _
  have hlast : ∀ xs : List String, lastPassChecked xs = none := by
    intro xs
    unfold lastPassChecked readChecked
    rw [List.get?_eq_none.2 le_rfl]
    rfl
  unfold replaceMissingValuesChecked
  refine hbind _ _ fun asks0 => ?_
  refine hbind _ _ fun bids0 => ?_
  refine hbind _ _ fun ubs0 => ?_
  refine hbind _ _ fun uas0 => ?_
  refine hbind _ _ fun asks1 => ?_
  refine hbind _ _ fun bids1 => ?_
  refine hbind _ _ fun ubs1 => ?_
  refine hbind _ _ fun uas1 => ?_
  rw [hlast]
  rfl

/-- Claim C4 (code bug): on the sequence whose field values are
`[missing, 10, 20, missing]` the interpolator fills the first record from
the first valid forward value, but the last record is never filled: the
last-record pass targets index 4 (`data.size()`), one past the end, so the
output is `[10, 10, 20, missing]`, not the `[10, 10, 20, 20]` the
specification states. -/
theorem replaceMissingValues_boundary_bug :
    replaceMissingValues [mkData "", mkData "10", mkData "20", mkData ""] =
      [mkData "10", mkData "10", mkData "20", mkData ""] := by decide

/-- Claim C6: the date calculator returns the sentinel `-1` exactly when the
observed string fails the `M/D/YYYY H:MM` regex, or the expiration string
fails the two-digits/two-digits/four-digits regex, or the computed
expiration instant precedes the computed observed instant; in every other
case it returns the elapsed seconds between the two instants divided by the
seconds of a 365-day year (no leap-year adjustment in the divisor). -/
theorem obtenerDiferenciaEnAnios_spec (fecha1 fecha2 : String) :
    (obtenerDiferenciaEnAnios fecha1 fecha2 = -1 ↔
      (isValidFormatDate fecha1 = false ∨ isValidFormatExpirationDate fecha2 = false ∨
        expirationEpochSeconds fecha2 < observedEpochSeconds fecha1)) ∧
    (isValidFormatDate fecha1 = true → isValidFormatExpirationDate fecha2 = true →
      observedEpochSeconds fecha1 ≤ expirationEpochSeconds fecha2 →
      obtenerDiferenciaEnAnios fecha1 fecha2 =
        ((expirationEpochSeconds fecha2 - observedEpochSeconds fecha1 : ℤ) : ℚ) /
          (365 * 24 * 60 * 60)) := by
  unfold obtenerDiferenciaEnAnios
  cases h1 : isValidFormatDate fecha1 with
  | false => simp [h1]
  | true =>
    cases h2 : isValidFormatExpirationDate fecha2 with
    | false => simp [h2]
    | true =>
      simp only [Bool.not_true, if_false, Bool.false_eq_true, false_or, or_false,
        Bool.true_eq_false]
      by_cases h3 : expirationEpochSeconds fecha2 < observedEpochSeconds fecha1
      · constructor
        · rw [if_pos h3]
          simp [h3]
        · intro _ _ hle
          exact absurd h3 (not_lt.2 hle)
      · rw [if_neg h3]
        have hnum : (0 : ℚ) ≤
            ((expirationEpochSeconds fecha2 - observedEpochSeconds fecha1 : ℤ) : ℚ) := by
          have : (0 : ℤ) ≤ expirationEpochSeconds fecha2 - observedEpochSeconds fecha1 := by
            omega
          exact_mod_cast this
        have hval : (0 : ℚ) ≤
            ((expirationEpochSeconds fecha2 - observedEpochSeconds fecha1 : ℤ) : ℚ) /
              (365 * 24 * 60 * 60) := by positivity
        constructor
        · constructor
          · intro he
            rw [he] at hval
            norm_num at hval
          · intro hc
            exact absurd hc h3
        · intro _ _ _
          rfl

/-- Witness for C6 at the concrete scenario pinned by the specification:
observed `10/18/2023 12:18`, expiring `20/10/2023`. -/
theorem obtenerDiferenciaEnAnios_spec_witness :
    isValidFormatDate "10/18/2023 12:18" = true ∧
    isValidFormatExpirationDate "20/10/2023" = true ∧
    observedEpochSeconds "10/18/2023 12:18" ≤ expirationEpochSeconds "20/10/2023" ∧
    obtenerDiferenciaEnAnios "10/18/2023 12:18" "20/10/2023" =
      ((expirationEpochSeconds "20/10/2023" - observedEpochSeconds "10/18/2023 12:18" : ℤ) : ℚ) /
        (365 * 24 * 60 * 60) :=
  ⟨by decide, by decide, by decide,
    (obtenerDiferenciaEnAnios_spec "10/18/2023 12:18" "20/10/2023").2
      (by decide) (by decide) (by decide)⟩

/-- Claim C1: the solver performs at most `maxIter` iterations over the
bracket sequence that starts at `(a, b)` and narrows by `bisectStep` (low
moves to the midpoint exactly when the market price strictly exceeds the
theoretical price there); it returns the midpoint of the first bracket
whose theoretical price is strictly within `tolerance` of the market price
when such an iteration exists within `maxIter`, and the sentinel `-1`
otherwise. -/
theorem findImpliedVolatility_bisection_spec
    (S K T r optionPrice a b tolerance : ℝ) (maxIter : ℕ) :
    ((∀ i < maxIter, ¬ hitsTolerance S K T r optionPrice tolerance
        ((bisectStep S K T r optionPrice)^[i] (a, b))) →
      findImpliedVolatility S K T r optionPrice a b tolerance maxIter = -1) ∧
    (∀ i < maxIter, hitsTolerance S K T r optionPrice tolerance
        ((bisectStep S K T r optionPrice)^[i] (a, b)) →
      (∀ k < i, ¬ hitsTolerance S K T r optionPrice tolerance
        ((bisectStep S K T r optionPrice)^[k] (a, b))) →
      findImpliedVolatility S K T r optionPrice a b tolerance maxIter =
        bracketMid ((bisectStep S K T r optionPrice)^[i] (a, b))) := by
  induction maxIter generalizing a b with
  | zero =>
    exact ⟨fun _ => rfl, fun i hi => absurd hi (Nat.not_lt_zero i)⟩
  | succ n ih =>
    by_cases h0 : hitsTolerance S K T r optionPrice tolerance (a, b)
    · constructor
      · intro H
        exact absurd h0 (by simpa using H 0 (Nat.succ_pos n))
      · intro i hi htrig hbelow
        cases i with
        | zero =>
          simp only [Function.iterate_zero_apply]
          show (if |blackScholesCall S K T r ((a + b) / 2) - optionPrice| < tolerance then
              (a + b) / 2
            else if optionPrice > blackScholesCall S K T r ((a + b) / 2) then
              findImpliedVolatility S K T r optionPrice ((a + b) / 2) b tolerance n
            else findImpliedVolatility S K T r optionPrice a ((a + b) / 2) tolerance n) =
            bracketMid (a, b)
          have h0' : |blackScholesCall S K T r ((a + b) / 2) - optionPrice| < tolerance := h0
          rw [if_pos h0']
          rfl
        | succ j =>
          exact absurd h0 (by simpa using hbelow 0 (Nat.succ_pos j))
    · have hstep : findImpliedVolatility S K T r optionPrice a b tolerance (n + 1) =
          findImpliedVolatility S K T r optionPrice
            (bisectStep S K T r optionPrice (a, b)).1
            (bisectStep S K T r optionPrice (a, b)).2 tolerance n := by
        show (if |blackScholesCall S K T r ((a + b) / 2) - optionPrice| < tolerance then
            (a + b) / 2
          else if optionPrice > blackScholesCall S K T r ((a + b) / 2) then
            findImpliedVolatility S K T r optionPrice ((a + b) / 2) b tolerance n
          else findImpliedVolatility S K T r optionPrice a ((a + b) / 2) tolerance n) = _
        have h0' : ¬ |blackScholesCall S K T r ((a + b) / 2) - optionPrice| < tolerance := h0
        rw [if_neg h0']
        by_cases h1 : optionPrice > blackScholesCall S K T r ((a + b) / 2)
        · rw [if_pos h1]
          have hb : bisectStep S K T r optionPrice (a, b) = ((a + b) / 2, b) := if_pos h1
          rw [hb]
        · rw [if_neg h1]
          have hb : bisectStep S K T r optionPrice (a, b) = (a, (a + b) / 2) := if_neg h1
          rw [hb]
      have hshift : ∀ k, (bisectStep S K T r optionPrice)^[k + 1] (a, b) =
          (bisectStep S K T r optionPrice)^[k] (bisectStep S K T r optionPrice (a, b)) :=
        fun k => Function.iterate_succ_apply _ _ _
      constructor
      · intro H
        rw [hstep]
        refine (ih (bisectStep S K T r optionPrice (a, b)).1
          (bisectStep S K T r optionPrice (a, b)).2).1 ?_
        intro i hi
        rw [← hshift i]
        exact H (i + 1) (Nat.succ_lt_succ hi)
      · intro i hi htrig hbelow
        cases i with
        | zero =>
          exact absurd (by simpa using htrig) h0
        | succ j =>
          rw [hstep, hshift j]
          rw [hshift j] at htrig
          refine (ih (bisectStep S K T r optionPrice (a, b)).1
            (bisectStep S K T r optionPrice (a, b)).2).2 j (Nat.lt_of_succ_lt_succ hi)
            htrig ?_
          intro k hk
          rw [← hshift k]
          exact hbelow (k + 1) (Nat.succ_lt_succ hk)

/-- Witness for C1 at concrete inputs: with zero iterations allowed, no
iteration can trigger the early return and the sentinel comes back. -/
theorem findImpliedVolatility_bisection_spec_witness :
    findImpliedVolatility 1 1 1 0 1 1 2 1 0 = -1 :=
  (findImpliedVolatility_bisection_spec 1 1 1 0 1 1 2 1 0).1
    (fun i hi => absurd hi (Nat.not_lt_zero i))

/-- The backward scan finds the nearest parseable value at or below its
starting index. -/
theorem scanBack_finds (xs : List String) (a : ℚ) :
    ∀ i j, j ≤ i → validAt xs j = true → valAt xs j = a →
      (∀ k, j < k → k ≤ i → validAt xs k = false) →
      scanBack xs i = some a := by
  intro i
  induction i with
  | zero =>
    intro j hj hv hval hnone
    have hj0 : j = 0 := Nat.le_zero.1 hj
    subst hj0
    simp [scanBack, hv, hval]
  | succ m ih =>
    intro j hj hv hval hnone
    by_cases hji : j = m + 1
    · subst hji
      simp [scanBack, hv, hval]
    · have hnotv : validAt xs (m + 1) = false := hnone (m + 1) (by omega) le_rfl
      have : scanBack xs (m + 1) = scanBack xs m := by
        simp [scanBack, hnotv]
      rw [this]
      exact ih j (by omega) hv hval (fun k hk1 hk2 => hnone k hk1 (by omega))

/-- The forward scan finds the nearest parseable value at or above its
starting index, given enough fuel. -/
theorem scanFwdAux_finds (xs : List String) (b : ℚ) :
    ∀ fuel i z, i ≤ z → z < i + fuel → validAt xs z = true → valAt xs z = b →
      (∀ k, i ≤ k → k < z → validAt xs k = false) →
      scanFwdAux xs i fuel = some b := by
  intro fuel
  induction fuel with
  | zero =>
    intro i z h1 h2 _ _ _
    omega
  | succ f ih =>
    intro i z h1 h2 hv hval hnone
    by_cases hiz : i = z
    · subst hiz
      simp [scanFwdAux, hv, hval]
    · have hinv : validAt xs i = false := hnone i le_rfl (by omega)
      have : scanFwdAux xs i (f + 1) = scanFwdAux xs (i + 1) f := by
        simp [scanFwdAux, hinv]
      rw [this]
      exact ih (i + 1) z (by omega) (by omega) hv hval
        (fun k hk1 hk2 => hnone k (by omega) hk2)

/-- Counterexample to C5 as stated: (i) with anchors `0.0000001` and `1`
the value stored for the missing interior field is `"0.500000"` — the
six-decimal rendering produced by `std::to_string` — whose parsed value
`1/2` differs from the arithmetic mean `(0.0000001 + 1)/2`; (ii) with
anchors `-1` (a genuinely parseable field) and `1`, the fill is skipped
entirely, because the code conflates the anchor value `-1` with its
"no anchor" sentinel. -/
theorem interior_mean_not_exact :
    fillField ["0.0000001", "x", "1"] = ["0.0000001", "0.500000", "1"] ∧
    isValidDouble "0.0000001" 0 = (true, 1 / 10000000) ∧
    isValidDouble "0.500000" 0 = (true, 1 / 2) ∧
    ¬ (((1 / 10000000 : ℚ) + 1) / 2 = 1 / 2) ∧
    fillField ["-1", "x", "1"] = ["-1", "x", "1"] ∧
    isValidDouble "-1" 0 = (true, -1) := by decide

/-- Claim C5 (amended): when the interior pass processes a missing record
`i` whose nearest parseable anchors at that moment are `a` (backward) and
`b` (forward), and neither anchor equals `-1` (the code conflates a genuine
`-1` with the "no anchor" sentinel), it stores
`std::to_string((a + b) / 2)` — the arithmetic mean rounded to six decimal
places; in particular `[5, missing, 15]` fills to exactly `10.0`. -/
theorem interiorStep_fills_rounded_mean :
    (∀ (xs : List String) (i : ℕ) (a b : ℚ),
      validAt xs i = false →
      (∃ j, j < i ∧ validAt xs j = true ∧ valAt xs j = a ∧
        ∀ k < i + 1, j < k → validAt xs k = false) →
      (∃ z, i < z ∧ z < xs.length ∧ validAt xs z = true ∧ valAt xs z = b ∧
        ∀ k < z, i ≤ k → validAt xs k = false) →
      a ≠ -1 → b ≠ -1 →
      interiorStep xs i = xs.set i (toString6 ((a + b) / 2))) ∧
    replaceMissingValues [mkData "5", mkData "x", mkData "15"] =
      [mkData "5", mkData "10.000000", mkData "15"] ∧
    isValidDouble "10.000000" 0 = (true, 10) := by
  refine ⟨?_, by decide, by decide⟩
  intro xs i a b hmiss hback hfwd ha hb
  obtain ⟨j, hj, hjv, hjval, hjnone⟩ := hback
  obtain ⟨z, hz1, hz2, hzv, hzval, hznone⟩ := hfwd
  have hsb : scanBack xs i = some a :=
    scanBack_finds xs a i j (Nat.le_of_lt hj) hjv hjval
      (fun k hk1 hk2 => hjnone k (by omega) hk1)
  have hsf : scanFwd xs i = some b := by
    unfold scanFwd
    exact scanFwdAux_finds xs b (xs.length - i) i z (Nat.le_of_lt hz1) (by omega) hzv hzval
      (fun k hk1 hk2 => hznone k hk2 hk1)
  unfold interiorStep
  rw [hmiss]
  simp only [Bool.false_eq_true, if_false, hsb, hsf, Option.getD_some]
  rw [if_pos ⟨ha, hb⟩]

/-- Witness for the amended C5 on `[5, missing, 15]`: anchors 5 and 15
(at indices 0 and 2), fill `to_string(10) = "10.000000"`. -/
theorem interiorStep_fills_rounded_mean_witness :
    validAt ["5", "x", "15"] 1 = false ∧
    (∃ j, j < 1 ∧ validAt ["5", "x", "15"] j = true ∧ valAt ["5", "x", "15"] j = 5 ∧
      ∀ k < 2, j < k → validAt ["5", "x", "15"] k = false) ∧
    (∃ z, 1 < z ∧ z < (["5", "x", "15"] : List String).length ∧
      validAt ["5", "x", "15"] z = true ∧ valAt ["5", "x", "15"] z = 15 ∧
      ∀ k < z, 1 ≤ k → validAt ["5", "x", "15"] k = false) ∧
    (5 : ℚ) ≠ -1 ∧ (15 : ℚ) ≠ -1 ∧
    interiorStep ["5", "x", "15"] 1 =
      (["5", "x", "15"] : List String).set 1 (toString6 ((5 + 15) / 2)) :=
  ⟨by decide, ⟨0, by decide⟩, ⟨2, by decide⟩, by decide, by decide,
    interiorStep_fills_rounded_mean.1 ["5", "x", "15"] 1 5 15 (by decide)
      ⟨0, by decide⟩ ⟨2, by decide⟩ (by decide) (by decide)⟩

open Real

/-- The Gaussian integrand of the error function is continuous. -/
theorem continuous_expNegSq : Continuous fun t : ℝ => Real.exp (-t ^ 2) := by
  fun_prop

/-- Derivative of the error function. -/
theorem erfR_hasDerivAt (x : ℝ) :
    HasDerivAt erfR (2 / Real.sqrt π * Real.exp (-x ^ 2)) x := by
  have h := intervalIntegral.integral_hasDerivAt_right
    (continuous_expNegSq.intervalIntegrable 0 x)
    (continuous_expNegSq.stronglyMeasurableAtFilter _ _)
    continuous_expNegSq.continuousAt
  exact h.const_mul (2 / Real.sqrt π)

/-- The standard normal density is positive. -/
theorem gaussPdf_pos (x : ℝ) : 0 < gaussPdf x := by
  unfold gaussPdf
  have hπ : (0 : ℝ) < 2 * π := by positivity
  positivity

/-- Derivative of the normal CDF used by the pricer. -/
theorem cdf_hasDerivAt (x : ℝ) : HasDerivAt cdf (gaussPdf x) x := by
  have hinner : HasDerivAt (fun y : ℝ => y / Real.sqrt 2) (1 / Real.sqrt 2) x := by
    simpa using (hasDerivAt_id x).div_const (Real.sqrt 2)
  have herf := (erfR_hasDerivAt (x / Real.sqrt 2)).comp x hinner
  have h := (herf.const_add (1 : ℝ)).const_mul (0.5 : ℝ)
  have heq : (0.5 : ℝ) * (2 / Real.sqrt π * Real.exp (-(x / Real.sqrt 2) ^ 2) *
      (1 / Real.sqrt 2)) = gaussPdf x := by
    have hsq : (x / Real.sqrt 2) ^ 2 = x ^ 2 / 2 := by
      rw [div_pow, Real.sq_sqrt (by norm_num : (0:ℝ) ≤ 2)]
    rw [hsq]
    unfold gaussPdf
    rw [Real.sqrt_mul (by norm_num : (0:ℝ) ≤ 2) π]
    have h2 : Real.sqrt 2 ≠ 0 := by positivity
    have hπ : Real.sqrt π ≠ 0 := by
      have := Real.pi_pos
      positivity
    rw [neg_div]
    field_simp
    ring
  exact heq ▸ h

/-- `d1` as a function of volatility: for `T > 0` and `σ ≠ 0` it equals
`A σ⁻¹ + B σ` with `A = (log(S/K) + r T)/√T` and `B = √T/2`. -/
theorem calculate_d1_eq (S K T r : ℝ) (hT : 0 < T) (σ : ℝ) (hσ : σ ≠ 0) :
    calculate_d1 S K T r σ =
      (Real.log (S / K) + r * T) / Real.sqrt T * σ⁻¹ + Real.sqrt T / 2 * σ := by
  unfold calculate_d1
  set s := Real.sqrt T with hs
  have hsq : s * s = T := Real.mul_self_sqrt hT.le
  have hspos : 0 < s := Real.sqrt_pos.2 hT
  rw [← hsq]
  field_simp
  ring

/-- Derivative of `d1` in the volatility. -/
theorem calculate_d1_hasDerivAt (S K T r : ℝ) (hT : 0 < T) (σ : ℝ) (hσ : 0 < σ) :
    HasDerivAt (fun v => calculate_d1 S K T r v)
      (Real.sqrt T / 2 - (Real.log (S / K) + r * T) / Real.sqrt T / σ ^ 2) σ := by
  have hA : HasDerivAt
      (fun v : ℝ => (Real.log (S / K) + r * T) / Real.sqrt T * v⁻¹ + Real.sqrt T / 2 * v)
      ((Real.log (S / K) + r * T) / Real.sqrt T * -(σ ^ 2)⁻¹ + Real.sqrt T / 2 * 1) σ :=
    ((hasDerivAt_inv (ne_of_gt hσ)).const_mul _).add ((hasDerivAt_id σ).const_mul _)
  have hev : (fun v => calculate_d1 S K T r v) =ᶠ[nhds σ]
      (fun v : ℝ => (Real.log (S / K) + r * T) / Real.sqrt T * v⁻¹ + Real.sqrt T / 2 * v) := by
    filter_upwards [eventually_ne_nhds (ne_of_gt hσ)] with v hv
    exact calculate_d1_eq S K T r hT v hv
  have h := hA.congr_of_eventuallyEq hev
  have heq : (Real.log (S / K) + r * T) / Real.sqrt T * -(σ ^ 2)⁻¹ + Real.sqrt T / 2 * 1 =
      Real.sqrt T / 2 - (Real.log (S / K) + r * T) / Real.sqrt T / σ ^ 2 := by
    field_simp
    ring
  exact heq ▸ h

/-- The key density identity `K e^{-rT} φ(d2) = S φ(d1)`. -/
theorem bs_density_identity (S K T r : ℝ) (hS : 0 < S) (hK : 0 < K) (hT : 0 < T)
    (σ : ℝ) (hσ : 0 < σ) :
    K * Real.exp (-r * T) * gaussPdf (calculate_d1 S K T r σ - σ * Real.sqrt T) =
      S * gaussPdf (calculate_d1 S K T r σ) := by
  have hkey : -(calculate_d1 S K T r σ - σ * Real.sqrt T) ^ 2 / 2 =
      -calculate_d1 S K T r σ ^ 2 / 2 + (Real.log (S / K) + r * T) := by
    rw [calculate_d1_eq S K T r hT σ (ne_of_gt hσ)]
    set s := Real.sqrt T with hs
    have hsq : s * s = T := Real.mul_self_sqrt hT.le
    have hspos : 0 < s := Real.sqrt_pos.2 hT
    rw [← hsq]
    field_simp
    ring
  unfold gaussPdf
  rw [hkey]
  have hexp : Real.exp (-calculate_d1 S K T r σ ^ 2 / 2 + (Real.log (S / K) + r * T)) =
      Real.exp (-calculate_d1 S K T r σ ^ 2 / 2) * ((S / K) * Real.exp (r * T)) := by
    rw [Real.exp_add, Real.exp_add, Real.exp_log (div_pos hS hK)]
  rw [hexp]
  have he : Real.exp (-(r * T)) * Real.exp (r * T) = 1 := by
    rw [← Real.exp_add]
    norm_num
  field_simp
  calc K * Real.exp (-(r * T)) *
        (Real.exp (-calculate_d1 S K T r σ ^ 2 / 2) * (S * Real.exp (r * T))) *
        (Real.sqrt 2 * Real.sqrt π)
      = S * Real.exp (-calculate_d1 S K T r σ ^ 2 / 2) * (K * (Real.sqrt 2 * Real.sqrt π)) *
        (Real.exp (-(r * T)) * Real.exp (r * T)) := by ring
    _ = S * Real.exp (-calculate_d1 S K T r σ ^ 2 / 2) * (K * (Real.sqrt 2 * Real.sqrt π)) := by
        rw [he, mul_one]

/-- Derivative of the call price in the volatility (the vega), in closed
form `S φ(d1) √T`. -/
theorem blackScholesCall_hasDerivAt (S K T r : ℝ) (hS : 0 < S) (hK : 0 < K) (hT : 0 < T)
    (σ : ℝ) (hσ : 0 < σ) :
    HasDerivAt (fun v => blackScholesCall S K T r v)
      (S * gaussPdf (calculate_d1 S K T r σ) * Real.sqrt T) σ := by
  have hd1 := calculate_d1_hasDerivAt S K T r hT σ hσ
  have hd2 : HasDerivAt (fun v => calculate_d1 S K T r v - v * Real.sqrt T)
      ((Real.sqrt T / 2 - (Real.log (S / K) + r * T) / Real.sqrt T / σ ^ 2) -
        Real.sqrt T) σ := by
    have := hd1.sub ((hasDerivAt_id σ).mul_const (Real.sqrt T))
    simpa using this
  have hc1 := (cdf_hasDerivAt (calculate_d1 S K T r σ)).comp σ hd1
  have hc2 := (cdf_hasDerivAt (calculate_d1 S K T r σ - σ * Real.sqrt T)).comp σ hd2
  have hp := (hc1.const_mul S).sub (hc2.const_mul (K * Real.exp (-r * T)))
  have hder : S * (gaussPdf (calculate_d1 S K T r σ) *
        (Real.sqrt T / 2 - (Real.log (S / K) + r * T) / Real.sqrt T / σ ^ 2)) -
      K * Real.exp (-r * T) * (gaussPdf (calculate_d1 S K T r σ - σ * Real.sqrt T) *
        ((Real.sqrt T / 2 - (Real.log (S / K) + r * T) / Real.sqrt T / σ ^ 2) -
          Real.sqrt T)) =
      S * gaussPdf (calculate_d1 S K T r σ) * Real.sqrt T := by
    have hid := bs_density_identity S K T r hS hK hT σ hσ
    calc S * (gaussPdf (calculate_d1 S K T r σ) *
          (Real.sqrt T / 2 - (Real.log (S / K) + r * T) / Real.sqrt T / σ ^ 2)) -
        K * Real.exp (-r * T) * (gaussPdf (calculate_d1 S K T r σ - σ * Real.sqrt T) *
          ((Real.sqrt T / 2 - (Real.log (S / K) + r * T) / Real.sqrt T / σ ^ 2) -
            Real.sqrt T))
        = S * (gaussPdf (calculate_d1 S K T r σ) *
            (Real.sqrt T / 2 - (Real.log (S / K) + r * T) / Real.sqrt T / σ ^ 2)) -
          (K * Real.exp (-r * T) * gaussPdf (calculate_d1 S K T r σ - σ * Real.sqrt T)) *
            ((Real.sqrt T / 2 - (Real.log (S / K) + r * T) / Real.sqrt T / σ ^ 2) -
              Real.sqrt T) := by ring
      _ = S * (gaussPdf (calculate_d1 S K T r σ) *
            (Real.sqrt T / 2 - (Real.log (S / K) + r * T) / Real.sqrt T / σ ^ 2)) -
          (S * gaussPdf (calculate_d1 S K T r σ)) *
            ((Real.sqrt T / 2 - (Real.log (S / K) + r * T) / Real.sqrt T / σ ^ 2) -
              Real.sqrt T) := by rw [hid]
      _ = S * gaussPdf (calculate_d1 S K T r σ) * Real.sqrt T := by ring
  exact hder ▸ hp

/-- The call price is strictly increasing in the volatility on `(0, ∞)`. -/
theorem blackScholesCall_strictMono (S K T r : ℝ) (hS : 0 < S) (hK : 0 < K) (hT : 0 < T) :
    StrictMonoOn (fun σ => blackScholesCall S K T r σ) (Set.Ioi 0) := by
  apply strictMonoOn_of_deriv_pos (convex_Ioi 0)
  · intro σ hσ
    exact (blackScholesCall_hasDerivAt S K T r hS hK hT σ hσ).continuousAt.continuousWithinAt
  · intro σ hσ
    rw [interior_Ioi] at hσ
    rw [(blackScholesCall_hasDerivAt S K T r hS hK hT σ hσ).deriv]
    exact mul_pos (mul_pos hS (gaussPdf_pos _)) (Real.sqrt_pos.2 hT)

/-- Bisection convergence: if the bracket `[a, b]` contains `vol0`, stays
inside `(0, ∞)`, and is narrower than `δ 2^n`, then within `n + 1`
iterations the solver hits the tolerance and returns a value of the bracket
whose price is within `tol` of the market price — and the result is stable
under any larger iteration budget. -/
theorem findIV_conv_aux (S K T r vol0 tol δ : ℝ)
    (hmono : StrictMonoOn (fun σ => blackScholesCall S K T r σ) (Set.Ioi 0))
    (hcont : ∀ x : ℝ, |x - vol0| < δ →
      |blackScholesCall S K T r x - blackScholesCall S K T r vol0| < tol) :
    ∀ (n : ℕ) (a b : ℝ), 0 < a → a ≤ vol0 → vol0 ≤ b → a < b → b - a < δ * 2 ^ n →
      ∃ v, a ≤ v ∧ v ≤ b ∧
        |blackScholesCall S K T r v - blackScholesCall S K T r vol0| < tol ∧
        ∀ m, n + 1 ≤ m →
          findImpliedVolatility S K T r (blackScholesCall S K T r vol0) a b tol m = v := by
  intro n
  induction n with
  | zero =>
    intro a b ha h1 h2 hab hw
    rw [pow_zero, mul_one] at hw
    have htrig : |blackScholesCall S K T r ((a + b) / 2) -
        blackScholesCall S K T r vol0| < tol := by
      apply hcont
      rw [abs_sub_lt_iff]
      constructor <;> linarith
    refine ⟨(a + b) / 2, by linarith, by linarith, htrig, ?_⟩
    intro m hm
    obtain ⟨m', rfl⟩ : ∃ m', m = m' + 1 := ⟨m - 1, by omega⟩
    show (if |blackScholesCall S K T r ((a + b) / 2) - blackScholesCall S K T r vol0| < tol
      then (a + b) / 2
      else if blackScholesCall S K T r vol0 > blackScholesCall S K T r ((a + b) / 2) then
        findImpliedVolatility S K T r (blackScholesCall S K T r vol0) ((a + b) / 2) b tol m'
      else findImpliedVolatility S K T r (blackScholesCall S K T r vol0) a ((a + b) / 2) tol m') =
      (a + b) / 2
    rw [if_pos htrig]
  | succ k ih =>
    intro a b ha h1 h2 hab hw
    by_cases htrig : |blackScholesCall S K T r ((a + b) / 2) -
        blackScholesCall S K T r vol0| < tol
    · refine ⟨(a + b) / 2, by linarith, by linarith, htrig, ?_⟩
      intro m hm
      obtain ⟨m', rfl⟩ : ∃ m', m = m' + 1 := ⟨m - 1, by omega⟩
      show (if |blackScholesCall S K T r ((a + b) / 2) - blackScholesCall S K T r vol0| < tol
        then (a + b) / 2
        else if blackScholesCall S K T r vol0 > blackScholesCall S K T r ((a + b) / 2) then
          findImpliedVolatility S K T r (blackScholesCall S K T r vol0) ((a + b) / 2) b tol m'
        else findImpliedVolatility S K T r (blackScholesCall S K T r vol0) a ((a + b) / 2) tol m')
        = (a + b) / 2
      rw [if_pos htrig]
    · have hw' : b - a < δ * 2 ^ k * 2 := by
        have : (2 : ℝ) ^ (k + 1) = 2 ^ k * 2 := pow_succ 2 k
        rw [this] at hw
        linarith
      have hpmem : (a + b) / 2 ∈ Set.Ioi (0 : ℝ) := by
        simp only [Set.mem_Ioi]
        linarith
      have hvmem : vol0 ∈ Set.Ioi (0 : ℝ) := by
        simp only [Set.mem_Ioi]
        linarith
      by_cases hgt : blackScholesCall S K T r vol0 > blackScholesCall S K T r ((a + b) / 2)
      · have hplt : (a + b) / 2 < vol0 := by
          by_contra hle
          push_neg at hle
          have hle' : blackScholesCall S K T r vol0 ≤ blackScholesCall S K T r ((a + b) / 2) :=
            (hmono.le_iff_le hvmem hpmem).2 hle
          linarith
        obtain ⟨v, hv1, hv2, hv3, hv4⟩ := ih ((a + b) / 2) b (by linarith) hplt.le h2
          (by linarith) (by linarith)
        refine ⟨v, by linarith, hv2, hv3, ?_⟩
        intro m hm
        obtain ⟨m', rfl⟩ : ∃ m', m = m' + 1 := ⟨m - 1, by omega⟩
        show (if |blackScholesCall S K T r ((a + b) / 2) - blackScholesCall S K T r vol0| < tol
          then (a + b) / 2
          else if blackScholesCall S K T r vol0 > blackScholesCall S K T r ((a + b) / 2) then
            findImpliedVolatility S K T r (blackScholesCall S K T r vol0) ((a + b) / 2) b tol m'
          else findImpliedVolatility S K T r (blackScholesCall S K T r vol0) a ((a + b) / 2) tol
            m') = v
        rw [if_neg htrig, if_pos hgt]
        exact hv4 m' (by omega)
      · have hvle : vol0 ≤ (a + b) / 2 := by
          have hle' : blackScholesCall S K T r vol0 ≤ blackScholesCall S K T r ((a + b) / 2) :=
            not_lt.1 hgt
          exact (hmono.le_iff_le hvmem hpmem).1 hle'
        obtain ⟨v, hv1, hv2, hv3, hv4⟩ := ih a ((a + b) / 2) ha h1 hvle
          (by linarith) (by linarith)
        refine ⟨v, hv1, by linarith, hv3, ?_⟩
        intro m hm
        obtain ⟨m', rfl⟩ : ∃ m', m = m' + 1 := ⟨m - 1, by omega⟩
        show (if |blackScholesCall S K T r ((a + b) / 2) - blackScholesCall S K T r vol0| < tol
          then (a + b) / 2
          else if blackScholesCall S K T r vol0 > blackScholesCall S K T r ((a + b) / 2) then
            findImpliedVolatility S K T r (blackScholesCall S K T r vol0) ((a + b) / 2) b tol m'
          else findImpliedVolatility S K T r (blackScholesCall S K T r vol0) a ((a + b) / 2) tol
            m') = v
        rw [if_neg htrig, if_neg hgt]
        exact hv4 m' (by omega)

/-- Claim C2: for `S, K, T > 0` and any bracket `0 < low < vol0 < high` and
tolerance `tol > 0`: the call price is strictly increasing in the
volatility on `(0, ∞)`, and the round trip holds — with
`price0 = call_price(S, K, T, r, vol0)` as market price, once `max_iter` is
large enough the solver returns a value `v` of the bracket (not the
sentinel `-1`) whose theoretical price is strictly within `tol` of
`price0`, the closeness on volatilities that the tolerance on prices
induces through the strictly monotone pricer. -/
theorem blackScholesCall_mono_roundTrip
    (S K T r low vol0 high tol : ℝ)
    (hS : 0 < S) (hK : 0 < K) (hT : 0 < T) (hlow : 0 < low)
    (h1 : low < vol0) (h2 : vol0 < high) (htol : 0 < tol) :
    StrictMonoOn (fun σ => blackScholesCall S K T r σ) (Set.Ioi 0) ∧
    ∃ N, ∀ n, N ≤ n → ∃ v,
      findImpliedVolatility S K T r (blackScholesCall S K T r vol0) low high tol n = v ∧
      v ≠ -1 ∧ low ≤ v ∧ v ≤ high ∧
      |blackScholesCall S K T r v - blackScholesCall S K T r vol0| < tol := by
  have hmono := blackScholesCall_strictMono S K T r hS hK hT
  refine ⟨hmono, ?_⟩
  have hca : ContinuousAt (fun σ => blackScholesCall S K T r σ) vol0 :=
    (blackScholesCall_hasDerivAt S K T r hS hK hT vol0 (by linarith)).continuousAt
  obtain ⟨δ, hδ, hcont⟩ : ∃ δ > 0, ∀ x : ℝ, |x - vol0| < δ →
      |blackScholesCall S K T r x - blackScholesCall S K T r vol0| < tol := by
    obtain ⟨δ, hδ, H⟩ := Metric.continuousAt_iff.1 hca tol htol
    refine ⟨δ, hδ, fun x hx => ?_⟩
    have := H (show dist x vol0 < δ by rwa [Real.dist_eq])
    rwa [Real.dist_eq] at this
  obtain ⟨N, hN⟩ : ∃ N : ℕ, (high - low) / δ < 2 ^ N :=
    pow_unbounded_of_one_lt _ (by norm_num)
  have hwidth : high - low < δ * 2 ^ N := by
    rw [div_lt_iff₀ hδ] at hN
    linarith
  obtain ⟨v, hv1, hv2, hv3, hv4⟩ := findIV_conv_aux S K T r vol0 tol δ hmono hcont N low high
    hlow h1.le h2.le (by linarith) hwidth
  refine ⟨N + 1, fun n hn => ⟨v, hv4 n hn, ?_, hv1, hv2, hv3⟩⟩
  intro he
  rw [he] at hv1
  linarith

/-- Witness for C2 at `S = K = T = 1`, `r = 0`, bracket `(1, 3)`,
`vol0 = 2`, `tol = 1`. -/
theorem blackScholesCall_mono_roundTrip_witness :
    ((0 : ℝ) < 1 ∧ (0 : ℝ) < 1 ∧ (0 : ℝ) < 1 ∧ (0 : ℝ) < 1 ∧ (1 : ℝ) < 2 ∧ (2 : ℝ) < 3 ∧
      (0 : ℝ) < 1) ∧
    (StrictMonoOn (fun σ => blackScholesCall 1 1 1 0 σ) (Set.Ioi 0) ∧
      ∃ N, ∀ n, N ≤ n → ∃ v,
        findImpliedVolatility 1 1 1 0 (blackScholesCall 1 1 1 0 2) 1 3 1 n = v ∧
        v ≠ -1 ∧ 1 ≤ v ∧ v ≤ 3 ∧
        |blackScholesCall 1 1 1 0 v - blackScholesCall 1 1 1 0 2| < 1) :=
  ⟨⟨one_pos, one_pos, one_pos, one_pos, one_lt_two, by norm_num, one_pos⟩,
    blackScholesCall_mono_roundTrip 1 1 1 0 1 2 3 1 one_pos one_pos one_pos one_pos
      one_lt_two (by norm_num) one_pos⟩

end BS
